import Mathlib

/-
Verification of the Concierge agent orchestration engine.

The embedding covers:
* the interrupt-aware Genkit flow `_conciergeAgentLogic`
  (functions/src/index.ts, revision with `interruptResponse` handling),
* the interrupt-aware `ChatComponent` (revision with `pendingInterrupt`),
* the history-aware `ChatComponent` (revision with `conversationHistory`).

The language-model adapter (`ai.generate`) is an external collaborator and is
modelled as a function from the request the flow builds to a reply; theorems
quantify over all adapters. JS strings are compared and trimmed through their
character lists so that every definition reduces inside the kernel.
-/

set_option maxRecDepth 10000

/-- Character-list model of JS `String.prototype.endsWith`, as used by the
tool lookup `t.__action.name.endsWith(interruptResponse.toolName)`. -/
def strEndsWith (s post : String) : Bool :=
  List.isSuffixOf post.data s.data

/-- Character-list model of JS `String.prototype.trim`. -/
def strTrim (s : String) : String :=
  String.mk (((s.data.dropWhile Char.isWhitespace).reverse.dropWhile Char.isWhitespace).reverse)

namespace Concierge

/-- Genkit `MessageData.role` values; `'model'` is the agent-authored role the
resume scan filters on. -/
inductive Role where
  | user
  | model
  | system
  | tool
deriving DecidableEq

/-- A capability-invocation request carried inside a message part
(`p.toolRequest`): the target tool name and its input. The input is opaque to
the orchestrator (`z.unknown()`), modelled as a string. -/
structure ToolRequest where
  name : String
  input : String
deriving DecidableEq

/-- Part metadata as probed by the flow: a present `metadata.interrupt` marks
the part as a suspension point. The payload itself is opaque. -/
structure PartMetadata where
  interrupt : Option String
deriving DecidableEq

/-- One element of a message's `content` array, with the two fields the resume
scan probes (`p.toolRequest`, `p.metadata`). -/
structure Part where
  toolRequest : Option ToolRequest
  metadata : Option PartMetadata
deriving DecidableEq

/-- Genkit `MessageData`: a role together with a content array. -/
structure MessageData where
  role : Role
  content : List Part
deriving DecidableEq

/-- One element of `response.interrupts`: a suspended tool request together
with its part metadata. -/
structure Suspension where
  toolRequest : ToolRequest
  metadata : Option PartMetadata
deriving DecidableEq

/-- The portion of a Genkit `GenerateResponse` the flow inspects:
`response.interrupts`, `response.text` (a string, possibly empty),
`response.output`, and `response.messages`. -/
structure GenResponse where
  interrupts : List Suspension
  text : String
  output : Option String
  messages : List MessageData
deriving DecidableEq

/-- The data determining the `resume.respond` directive built at the resume
call site: `matchingTool.respond(interruptPart, interruptResponse.response)`,
recorded as the matched tool name, the matched part and the user's answer. -/
structure ResumeDirective where
  tool : String
  interruptPart : Part
  response : String
deriving DecidableEq

/-- One `ai.generate` call as issued by the flow: prompt, message sequence,
tool set, and the optional resume directive. -/
structure GenRequest where
  prompt : String
  messages : List MessageData
  tools : List String
  resume : Option ResumeDirective
deriving DecidableEq

/-- `interruptResponse` of `ConciergeInputSchema`. -/
structure InterruptResponse where
  toolName : String
  response : String
deriving DecidableEq

/-- `ConciergeInputSchema`: utterance, optional retained message sequence, and
optional resume payload. -/
structure ConciergeInput where
  input : String
  messages : Option (List MessageData)
  interruptResponse : Option InterruptResponse
deriving DecidableEq

/-- `InterruptDataSchema`: the surfaced pending interrupt
(`{toolName, toolInput, metadata}`). -/
structure InterruptData where
  toolName : String
  toolInput : String
  metadata : Option String
deriving DecidableEq

/-- `ConciergeOutputSchema`: optional text, optional interrupt, and the
message sequence returned for the caller to retain. -/
structure ConciergeOutput where
  text : Option String
  interrupt : Option InterruptData
  messages : List MessageData
deriving DecidableEq

/-- The one failure the flow can signal: `throw new Error('No output from AI')`. -/
inductive ConciergeError where
  | noOutput
deriving DecidableEq

/-- The concierge system prompt. Its text lives in `system-prompt.ts`, outside
the orchestration core; its contents never affect control flow, so an opaque
constant suffices. -/
def CONCIERGE_AGENT_PROMPT : String :=
  "CONCIERGE_AGENT_PROMPT"

/-- The prompt string built for each generate call:
`` `${CONCIERGE_AGENT_PROMPT}\n\nUser query: ${input}` ``. -/
def conciergePrompt (input : String) : String :=
  CONCIERGE_AGENT_PROMPT ++ "\n\nUser query: " ++ input

/-- The fixed tool registry handed to every `ai.generate` call, identified by
the registered `__action.name`s in declaration order. -/
def toolNames : List String :=
  ["dayTripAgentFlow", "foodieAgentFlow", "weekendGuideAgentFlow", "findAndNavigateAgentFlow"]

/-- `[...prevMessages].reverse().find((m) => m.role === 'model')`. -/
def findLastModelMessage (msgs : List MessageData) : Option MessageData :=
  msgs.reverse.find? (fun m => m.role == Role.model)

/-- The content-scan predicate: `p.toolRequest && p.toolRequest.name ===
interruptResponse.toolName && p.metadata && p.metadata.interrupt`. -/
def partMatchesInterrupt (toolName : String) (p : Part) : Bool :=
  match p.toolRequest, p.metadata with
  | some tr, some md => tr.name == toolName && md.interrupt.isSome
  | _, _ => false

/-- `lastModelMessage?.content?.find(...)` with the scan predicate. -/
def findInterruptPart (toolName : String) (m : MessageData) : Option Part :=
  m.content.find? (partMatchesInterrupt toolName)

/-- The suspension record the code selects for a resume request: the most
recent model-authored message is located, and only its content is searched. -/
def codeSelectedPart (toolName : String) (msgs : List MessageData) : Option Part :=
  (findLastModelMessage msgs).bind (findInterruptPart toolName)

/-- `tools.find((t) => t.__action.name.endsWith(interruptResponse.toolName))`. -/
def findMatchingTool (toolName : String) : Option String :=
  toolNames.find? (fun t => strEndsWith t toolName)

/-- `response.text || response.output` under JS truthiness: the usable output
of a generate reply, if any (empty strings are falsy). -/
def responseResult (r : GenResponse) : Option String :=
  if r.text != "" then some r.text
  else
    match r.output with
    | some o => if o != "" then some o else none
    | none => none

/-- `{toolName: interrupt.toolRequest.name, toolInput: interrupt.toolRequest.input,
metadata: interrupt.metadata?.interrupt}`. -/
def mkInterruptData (s : Suspension) : InterruptData :=
  { toolName := s.toolRequest.name
    toolInput := s.toolRequest.input
    metadata := s.metadata.bind (fun md => md.interrupt) }

/-- The guard chain of the resume branch: `if (interruptResponse &&
prevMessages?.length)`, then the backward scan for the last model message and
its matching interrupt part (`if (interruptPart)`), then the suffix-based tool
lookup (`if (matchingTool)`). A `none` at any step makes the flow fall through
to standard generation. -/
def resumeMatch (inp : ConciergeInput) : Option ResumeDirective :=
  match inp.interruptResponse, inp.messages with
  | some ir, some prev =>
    if prev.isEmpty then none
    else
      match codeSelectedPart ir.toolName prev with
      | some interruptPart =>
        match findMatchingTool ir.toolName with
        | some matchingTool =>
          some { tool := matchingTool, interruptPart := interruptPart, response := ir.response }
        | none => none
      | none => none
  | _, _ => none

/-- The flow `_conciergeAgentLogic`, parametrised by the language-model
adapter. On a successful resume match the adapter is called with the retained
messages and the resume directive; otherwise (fresh turn or fall-through) it
is called with prompt and tools only. The reply is normalised: a non-empty
`response.interrupts` surfaces its first element; otherwise the usable text is
returned, except that on the standard path a missing result throws
`No output from AI` while the resume path returns it as absent text. -/
def conciergeAgentLogic (adapter : GenRequest → GenResponse) (inp : ConciergeInput) :
    Except ConciergeError ConciergeOutput :=
  match resumeMatch inp with
  | some ro =>
    let response := adapter
      { prompt := conciergePrompt inp.input
        messages := inp.messages.getD []
        tools := toolNames
        resume := some ro }
    match response.interrupts with
    | s :: _ =>
      Except.ok { text := none, interrupt := some (mkInterruptData s), messages := response.messages }
    | [] =>
      Except.ok { text := responseResult response, interrupt := none, messages := response.messages }
  | none =>
    let response := adapter
      { prompt := conciergePrompt inp.input
        messages := []
        tools := toolNames
        resume := none }
    match response.interrupts with
    | s :: _ =>
      Except.ok { text := none, interrupt := some (mkInterruptData s), messages := response.messages }
    | [] =>
      match responseResult response with
      | some result =>
        Except.ok { text := some result, interrupt := none, messages := response.messages }
      | none => Except.error ConciergeError.noOutput

/-- The single `ai.generate` request a run issues, determined by the input. -/
def requestOf (inp : ConciergeInput) : GenRequest :=
  match resumeMatch inp with
  | some ro =>
    { prompt := conciergePrompt inp.input
      messages := inp.messages.getD []
      tools := toolNames
      resume := some ro }
  | none =>
    { prompt := conciergePrompt inp.input
      messages := []
      tools := toolNames
      resume := none }

/-- Normalisation of the adapter reply, factored out of the flow body. -/
def runStep (inp : ConciergeInput) (response : GenResponse) :
    Except ConciergeError ConciergeOutput :=
  match response.interrupts with
  | s :: _ =>
    Except.ok { text := none, interrupt := some (mkInterruptData s), messages := response.messages }
  | [] =>
    match resumeMatch inp with
    | some _ =>
      Except.ok { text := responseResult response, interrupt := none, messages := response.messages }
    | none =>
      match responseResult response with
      | some result =>
        Except.ok { text := some result, interrupt := none, messages := response.messages }
      | none => Except.error ConciergeError.noOutput

/-- Claim-level predicate (spec §4.2): the partial history contains, anywhere,
an agent-authored capability-invocation record whose target name equals the
resume capability name and whose metadata marks a suspension point. -/
def hasSuspendedRecord (toolName : String) (msgs : List MessageData) : Bool :=
  msgs.any (fun m => m.role == Role.model && m.content.any (partMatchesInterrupt toolName))

/-- Modelled from the spec's words (§4.2 step 2), for comparison with
`codeSelectedPart`: scan the retained history from the most recent entry
backward for an agent-authored capability-invocation record matching the
resume capability name and marked as a suspension point; the most recent such
match anywhere in the history is selected. -/
def specSelectedPart (toolName : String) (msgs : List MessageData) : Option Part :=
  (msgs.reverse.filterMap (fun m =>
    if m.role == Role.model then m.content.reverse.find? (partMatchesInterrupt toolName)
    else none)).head?

/-- Claim-level predicate (spec §6): a successful response populates exactly
one of `text` / `interrupt`. -/
def exactlyOneField (o : ConciergeOutput) : Prop :=
  (o.text.isSome = true ∧ o.interrupt = none) ∨ (o.text = none ∧ o.interrupt.isSome = true)

end Concierge

namespace InterruptChat

/-- The `sender` discriminant of a displayed chat message. -/
inductive Sender where
  | user
  | ai
deriving DecidableEq

/-- A displayed chat message (`Message`); the wall-clock `timestamp` and the
rendered `formattedText` are presentation-only and are not modelled. -/
structure ChatMessage where
  text : String
  sender : Sender
  isInterrupt : Bool
deriving DecidableEq

/-- `InterruptState`: the stored pending interrupt, the retained partial
message sequence, and the original query of the suspended turn. -/
structure InterruptState where
  interrupt : Concierge.InterruptData
  messages : List Concierge.MessageData
  originalQuery : String
deriving DecidableEq

/-- The component state the claims are about: the displayed message list, the
`pendingInterrupt` signal (an `Option`, so at most one interrupt can ever be
held), and the `isLoading` guard. -/
structure ChatState where
  messages : List ChatMessage
  pendingInterrupt : Option InterruptState
  isLoading : Bool
deriving DecidableEq

/-- `ConciergeResponse` as the client sees it. -/
structure ClientResponse where
  text : Option String
  interrupt : Option Concierge.InterruptData
  messages : Option (List Concierge.MessageData)
deriving DecidableEq

/-- The call handed to `AiService.sendMessage` (input, retained messages,
optional resume payload); the service forwards it to the flow unchanged. -/
structure AiRequest where
  input : String
  messages : List Concierge.MessageData
  interruptResponse : Option Concierge.InterruptResponse
deriving DecidableEq

/-- The canned notice displayed when a turn suspends. -/
def interruptNoticeText : String :=
  "I need a bit more information to help you. Could you please provide additional details?"

/-- The generic apology displayed when a turn fails. -/
def chatErrorText : String :=
  "Sorry, something went wrong. Please try again."

/-- `sendMessage()` of the interrupt-aware `ChatComponent`: trim the control
value; bail out when empty or already loading; display the user message and
set `isLoading`; then, when an interrupt is pending, clear it and send
`(pending.originalQuery, pending.messages, {toolName, response: query})`,
otherwise send the plain query. Returns the new state and the request sent
(`none` when the guard rejected the send). -/
def sendMessage (st : ChatState) (raw : String) : ChatState × Option AiRequest :=
  let query := strTrim raw
  if query == "" || st.isLoading then (st, none)
  else
    let st1 : ChatState :=
      { st with
        messages := st.messages ++ [{ text := query, sender := Sender.user, isInterrupt := false }]
        isLoading := true }
    match st1.pendingInterrupt with
    | some pending =>
      ({ st1 with pendingInterrupt := none },
       some { input := pending.originalQuery
              messages := pending.messages
              interruptResponse := some { toolName := pending.interrupt.toolName, response := query } })
    | none =>
      (st1, some { input := query, messages := [], interruptResponse := none })

/-- `handleResponse()`: a response carrying an interrupt stores a fresh
`InterruptState` (overwriting whatever was pending) and displays the canned
notice; a plain-text response only appends a displayed message. -/
def handleResponse (st : ChatState) (resp : ClientResponse) (originalQuery : String) : ChatState :=
  match resp.interrupt with
  | some intr =>
    { st with
      pendingInterrupt := some
        { interrupt := intr, messages := resp.messages.getD [], originalQuery := originalQuery }
      messages := st.messages ++
        [{ text := interruptNoticeText, sender := Sender.ai, isInterrupt := true }] }
  | none =>
    match resp.text with
    | some t =>
      if t == "" then st
      else
        { st with messages := st.messages ++
            [{ text := t, sender := Sender.ai, isInterrupt := false }] }
    | none => st

/-- `handleError()`: clear the pending interrupt and display the apology. -/
def handleError (st : ChatState) : ChatState :=
  { st with
    pendingInterrupt := none
    messages := st.messages ++ [{ text := chatErrorText, sender := Sender.ai, isInterrupt := false }] }

end InterruptChat

namespace HistoryChat

/-- The `sender` discriminant of a displayed chat message. -/
inductive Sender where
  | user
  | ai
deriving DecidableEq

/-- `ConversationMessage` of `chat.model.ts`: one retained conversation turn. -/
inductive HistRole where
  | user
  | model
deriving DecidableEq

/-- One retained conversation turn. -/
structure ConversationMessage where
  role : HistRole
  content : String
deriving DecidableEq

/-- A displayed chat message; timestamps and rendered markdown are
presentation-only and not modelled. -/
structure ChatMessage where
  text : String
  sender : Sender
deriving DecidableEq

/-- The state of the history-aware `ChatComponent`: displayed messages, the
retained `conversationHistory`, and the `isLoading` guard. -/
structure HistState where
  messages : List ChatMessage
  conversationHistory : List ConversationMessage
  isLoading : Bool
deriving DecidableEq

/-- The generic apology displayed when a turn fails. -/
def histErrorText : String :=
  "Sorry, something went wrong. Please try again."

/-- `sendMessage()` of the history-aware `ChatComponent`: display the user
message, snapshot the history BEFORE appending the new user turn, append the
user turn, and send `(query, historySnapshot)`. Returns the post-call state
and the request actually sent (`none` when the guard rejects the send). -/
def sendMessage (st : HistState) (raw : String) :
    HistState × Option (String × List ConversationMessage) :=
  let query := strTrim raw
  if query == "" || st.isLoading then (st, none)
  else
    let withUserMsg : HistState :=
      { st with messages := st.messages ++ [{ text := query, sender := Sender.user }] }
    let historySnapshot := withUserMsg.conversationHistory
    let st2 : HistState :=
      { withUserMsg with
        conversationHistory :=
          withUserMsg.conversationHistory ++ [{ role := HistRole.user, content := query }]
        isLoading := true }
    (st2, some (query, historySnapshot))

/-- The success callback: display the AI message and append the model turn to
the retained history. -/
def handleNext (st : HistState) (data : String) : HistState :=
  { st with
    messages := st.messages ++ [{ text := data, sender := Sender.ai }]
    conversationHistory := st.conversationHistory ++ [{ role := HistRole.model, content := data }] }

/-- The error callback: display the generic apology only; the retained
conversation history is untouched. -/
def handleError (st : HistState) : HistState :=
  { st with messages := st.messages ++ [{ text := histErrorText, sender := Sender.ai }] }

end HistoryChat

namespace Concierge

/-- A suspension record for `dayTripAgentFlow` as it appears inside a model
message of a retained partial history. -/
def suspendedPart : Part :=
  { toolRequest := some { name := "dayTripAgentFlow", input := "plan" }
    metadata := some { interrupt := some "ask-city" } }

/-- A model-authored message carrying `suspendedPart`. -/
def suspendedMsg : MessageData :=
  { role := Role.model, content := [suspendedPart] }

/-- A resume input whose partial history matches the resume target in its last
model message. -/
def matchedResumeInput : ConciergeInput :=
  { input := "Plan my weekend"
    messages := some [suspendedMsg]
    interruptResponse := some { toolName := "dayTripAgentFlow", response := "Lisbon" } }

/-- An adapter reply carrying neither interrupts nor usable text or output. -/
def emptyReply : GenResponse :=
  { interrupts := [], text := "", output := none, messages := [] }

/-- An adapter that always returns `emptyReply`. -/
def emptyAdapter : GenRequest → GenResponse := fun _ => emptyReply

/-- An adapter reply that is plain synthesized text. -/
def textReply : GenResponse :=
  { interrupts := [], text := "Here is a venue.", output := none, messages := [] }

/-- An adapter that always returns `textReply`. -/
def textAdapter : GenRequest → GenResponse := fun _ => textReply

/-- A resume request whose supplied partial history is empty, so no suspended
record can match. -/
def unmatchedResumeInput : ConciergeInput :=
  { input := "hello"
    messages := some []
    interruptResponse := some { toolName := "dayTripAgentFlow", response := "x" } }

/-- A model-authored message with no content at all. -/
def laterModelMsg : MessageData :=
  { role := Role.model, content := [] }

/-- A history whose matching suspension record sits in an EARLIER model
message, while the most recent model message carries no match. -/
def staleHistory : List MessageData :=
  [suspendedMsg, laterModelMsg]

/-- A resume request against `staleHistory`. -/
def staleResumeInput : ConciergeInput :=
  { input := "resume it"
    messages := some staleHistory
    interruptResponse := some { toolName := "dayTripAgentFlow", response := "Lisbon" } }

/-- A first suspension returned by the adapter. -/
def susA : Suspension :=
  { toolRequest := { name := "dayTripAgentFlow", input := "a" }
    metadata := some { interrupt := some "qa" } }

/-- A second, simultaneous suspension returned by the adapter. -/
def susB : Suspension :=
  { toolRequest := { name := "foodieAgentFlow", input := "b" }
    metadata := some { interrupt := some "qb" } }

/-- An adapter reply carrying two suspensions at once. -/
def twoSuspensionsReply : GenResponse :=
  { interrupts := [susA, susB], text := "", output := none, messages := [suspendedMsg] }

/-- An adapter that always suspends twice. -/
def twoSuspensionsAdapter : GenRequest → GenResponse := fun _ => twoSuspensionsReply

/-- A fresh turn: no retained messages, no resume payload. -/
def freshInput : ConciergeInput :=
  { input := "Plan my weekend", messages := none, interruptResponse := none }

/-- A suspension record whose tool name `"Flow"` is a proper ending of all
four registered tool names. -/
def flowPart : Part :=
  { toolRequest := some { name := "Flow", input := "p" }
    metadata := some { interrupt := some "m" } }

/-- A model message carrying `flowPart`. -/
def flowMsg : MessageData :=
  { role := Role.model, content := [flowPart] }

/-- A resume request naming the capability `"Flow"`. -/
def flowResumeInput : ConciergeInput :=
  { input := "go"
    messages := some [flowMsg]
    interruptResponse := some { toolName := "Flow", response := "ans" } }

end Concierge

namespace InterruptChat

/-- A stored pending interrupt, as `handleResponse` would record it. -/
def wPending : InterruptState :=
  { interrupt := { toolName := "dayTripAgentFlow", toolInput := "plan", metadata := some "ask-city" }
    messages := [Concierge.suspendedMsg]
    originalQuery := "Plan my weekend" }

/-- A component state in `AwaitingResponse`: one interrupt pending, idle. -/
def wChatState : ChatState :=
  { messages := [], pendingInterrupt := some wPending, isLoading := false }

end InterruptChat

namespace HistoryChat

/-- A component state with two retained turns, idle. -/
def wHistState : HistState :=
  { messages := []
    conversationHistory :=
      [{ role := HistRole.user, content := "hi" }, { role := HistRole.model, content := "hello" }]
    isLoading := false }

end HistoryChat

namespace Concierge

/-- Helper: each run issues exactly one adapter call, `requestOf inp`, and
normalises its reply with `runStep`. -/
theorem run_factor (adapter : GenRequest → GenResponse) (inp : ConciergeInput) :
    conciergeAgentLogic adapter inp = runStep inp (adapter (requestOf inp)) := by
  unfold conciergeAgentLogic runStep requestOf
  cases h : resumeMatch inp <;> simp [h]

/-- Helper: without a resume payload the guard chain never matches. -/
theorem resumeMatch_none_of_no_resume (inp : ConciergeInput)
    (h : inp.interruptResponse = none) : resumeMatch inp = none := by
  unfold resumeMatch
  rw [h]

/-- Helper: when the supplied partial history holds no matching suspended
record anywhere, the guard chain of the resume branch fails. -/
theorem resumeMatch_none_of_no_record (inp : ConciergeInput) (ir : InterruptResponse)
    (hir : inp.interruptResponse = some ir)
    (hno : hasSuspendedRecord ir.toolName (inp.messages.getD []) = false) :
    resumeMatch inp = none := by
  unfold resumeMatch
  rw [hir]
  cases hm : inp.messages with
  | none => rfl
  | some prev =>
    rw [hm] at hno
    simp only [Option.getD] at hno
    by_cases he : prev.isEmpty
    · simp [he]
    · simp only [he, if_false]
      cases hf : codeSelectedPart ir.toolName prev with
      | none => simp
      | some p =>
        exfalso
        unfold codeSelectedPart findLastModelMessage at hf
        cases hl : (prev.reverse.find? (fun m => m.role == Role.model)) with
        | none => rw [hl] at hf; simp at hf
        | some lm =>
          rw [hl] at hf
          simp only [Option.bind] at hf
          have hmem : lm ∈ prev := List.mem_reverse.mp (List.mem_of_find?_eq_some hl)
          have hrole := List.find?_some hl
          simp only at hrole
          unfold hasSuspendedRecord at hno
          have hall : ∀ m ∈ prev,
              ¬(m.role == Role.model && m.content.any (partMatchesInterrupt ir.toolName)) = true := by
            intro m hmm hcontra
            have : prev.any
                (fun m => m.role == Role.model && m.content.any (partMatchesInterrupt ir.toolName)) = true :=
              List.any_eq_true.mpr ⟨m, hmm, hcontra⟩
            rw [hno] at this
            exact Bool.false_ne_true this
          have h2 := hall lm hmem
          rw [hrole] at h2
          simp only [Bool.true_and] at h2
          have h3 : ∀ x ∈ lm.content, ¬(partMatchesInterrupt ir.toolName x = true) := by
            intro x hx hcontra
            exact h2 (List.any_eq_true.mpr ⟨x, hx, hcontra⟩)
          unfold findInterruptPart at hf
          rw [List.find?_eq_none.mpr h3] at hf
          simp at hf

/-- C1 counterexample: a resume request whose capability name has no matching
suspended record (the partial history is empty) does NOT fail — the flow
raises no error of any kind and silently returns a Completed text produced by
plain generation, refuting the claim that such a call yields
`UnmatchedInterruptError` and never a silent `Completed`. -/
theorem c1_unmatched_resume_silently_completes :
    hasSuspendedRecord "dayTripAgentFlow" (unmatchedResumeInput.messages.getD []) = false ∧
    conciergeAgentLogic textAdapter unmatchedResumeInput =
      Except.ok { text := some "Here is a venue.", interrupt := none, messages := [] } :=
  ⟨rfl, rfl⟩

/-- C1 (amended): for every resume request whose capability name has no
matching suspended record anywhere in the supplied partial history (including
an empty history), the flow silently falls back to plain generation — the run
is indistinguishable from the same call with no resume payload at all; no
`UnmatchedInterruptError` exists in the code. -/
theorem c1_unmatched_resume_falls_back_to_standard
    (adapter : GenRequest → GenResponse) (inp : ConciergeInput) (ir : InterruptResponse)
    (hir : inp.interruptResponse = some ir)
    (hno : hasSuspendedRecord ir.toolName (inp.messages.getD []) = false) :
    conciergeAgentLogic adapter inp =
      conciergeAgentLogic adapter
        { input := inp.input, messages := inp.messages, interruptResponse := none } := by
  have h1 : resumeMatch inp = none := resumeMatch_none_of_no_record inp ir hir hno
  have h2 :=
    resumeMatch_none_of_no_resume
      { input := inp.input, messages := inp.messages, interruptResponse := none } rfl
  unfold conciergeAgentLogic
  rw [h1, h2]

/-- C1 witness: the amended fallback theorem applied at the concrete
unmatched resume request. -/
theorem c1_unmatched_resume_falls_back_to_standard_witness :
    conciergeAgentLogic textAdapter unmatchedResumeInput =
      conciergeAgentLogic textAdapter
        { input := "hello", messages := some [], interruptResponse := none } :=
  c1_unmatched_resume_falls_back_to_standard textAdapter unmatchedResumeInput
    { toolName := "dayTripAgentFlow", response := "x" } rfl rfl

/-- C2 counterexample: in `staleHistory` the matching suspended record sits in
an earlier model message; the spec-worded scan (most recent match anywhere)
selects it, but the code selects nothing and the run falls through to plain
generation — refuting the claim that the most recent match anywhere in the
history is selected. -/
theorem c2_match_in_earlier_message_not_selected :
    specSelectedPart "dayTripAgentFlow" staleHistory = some suspendedPart ∧
    codeSelectedPart "dayTripAgentFlow" staleHistory = none ∧
    conciergeAgentLogic textAdapter staleResumeInput =
      Except.ok { text := some "Here is a venue.", interrupt := none, messages := [] } :=
  ⟨rfl, rfl, rfl⟩

/-- C2 (amended): the resume scan first locates the most recent model-authored
message and then searches ONLY that message's content for a matching
suspension part; records in all earlier history entries are ignored. -/
theorem c2_resume_scan_searches_only_last_model_message
    (t : String) (pre : List MessageData) (m : MessageData) (post : List MessageData)
    (hm : m.role = Role.model)
    (hpost : ∀ m2 ∈ post, m2.role ≠ Role.model) :
    codeSelectedPart t (pre ++ m :: post) = findInterruptPart t m := by
  unfold codeSelectedPart findLastModelMessage
  have hrev : (pre ++ m :: post).reverse = post.reverse ++ m :: pre.reverse := by
    simp
  rw [hrev]
  rw [List.find?_append]
  have hpost2 : post.reverse.find? (fun x => x.role == Role.model) = none := by
    apply List.find?_eq_none.mpr
    intro x hx
    exact fun hc => hpost x (List.mem_reverse.mp hx) (beq_iff_eq.mp hc)
  rw [hpost2]
  have hfound : List.find? (fun x => x.role == Role.model) (m :: pre.reverse) = some m := by
    rw [List.find?_cons, hm]
    rfl
  rw [hfound]
  rfl

/-- C2 witness: the amended scan theorem applied at a concrete history whose
matching record lies before the last model message. -/
theorem c2_resume_scan_searches_only_last_model_message_witness :
    codeSelectedPart "dayTripAgentFlow" ([suspendedMsg] ++ laterModelMsg :: []) =
      findInterruptPart "dayTripAgentFlow" laterModelMsg :=
  c2_resume_scan_searches_only_last_model_message "dayTripAgentFlow" [suspendedMsg]
    laterModelMsg [] rfl (fun m2 h => absurd h (List.not_mem_nil m2))

end Concierge

namespace Concierge

/-- C3 counterexample: a successful (non-throwing) resume run whose adapter
reply carries neither interrupts nor usable text returns a response populating
NEITHER `text` nor `interrupt`, refuting the claim that every successful
response populates exactly one of the two. -/
theorem c3_resume_success_may_populate_neither :
    conciergeAgentLogic emptyAdapter matchedResumeInput =
      Except.ok { text := none, interrupt := none, messages := [] } ∧
    ¬ exactlyOneField { text := none, interrupt := none, messages := [] } :=
  by
  refine ⟨rfl, ?_⟩
  intro h
  rcases h with ⟨h1, -⟩ | ⟨-, h2⟩
  · simp at h1
  · simp at h2

/-- C3 (amended): every successful response populates at most one of `text` /
`interrupt`, and on any run that does not take the matched-resume branch
(fresh turns and fall-throughs) exactly one is populated; only the
matched-resume branch may return a response carrying neither. -/
theorem c3_success_populates_at_most_one
    (adapter : GenRequest → GenResponse) (inp : ConciergeInput) (out : ConciergeOutput)
    (h : conciergeAgentLogic adapter inp = Except.ok out) :
    ¬(out.text.isSome = true ∧ out.interrupt.isSome = true) ∧
    (resumeMatch inp = none → exactlyOneField out) := by
  rw [run_factor] at h
  unfold runStep at h
  cases hi : (adapter (requestOf inp)).interrupts with
  | cons s rest =>
    rw [hi] at h
    simp only [Except.ok.injEq] at h
    subst h
    constructor
    · rintro ⟨ht, -⟩
      simp at ht
    · intro _
      exact Or.inr ⟨rfl, rfl⟩
  | nil =>
    rw [hi] at h
    cases hr : resumeMatch inp with
    | some ro =>
      rw [hr] at h
      simp only [Except.ok.injEq] at h
      subst h
      constructor
      · rintro ⟨-, hint⟩
        simp at hint
      · intro hcontra
        exact Option.noConfusion hcontra
    | none =>
      rw [hr] at h
      cases hres : responseResult (adapter (requestOf inp)) with
      | some t =>
        rw [hres] at h
        simp only [Except.ok.injEq] at h
        subst h
        constructor
        · rintro ⟨-, hint⟩
          simp at hint
        · intro _
          exact Or.inl ⟨rfl, rfl⟩
      | none =>
        rw [hres] at h
        exact absurd h (by simp)

/-- C3 witness: the amended theorem applied to a fresh text-only turn, whose
successful response populates exactly one field. -/
theorem c3_success_populates_at_most_one_witness :
    exactlyOneField { text := some "Here is a venue.", interrupt := none, messages := [] } :=
  (c3_success_populates_at_most_one textAdapter freshInput
    { text := some "Here is a venue.", interrupt := none, messages := [] } rfl).2 rfl

/-- C5 counterexample: on the matched-resume path an adapter reply with
neither synthesized text nor any capability decision does NOT make the
operation fail with `NoOutputError` — the run succeeds with an all-empty
response, refuting the claim that every such call is fatal for the turn. -/
theorem c5_no_output_on_resume_not_fatal :
    (emptyAdapter (requestOf matchedResumeInput)).interrupts = [] ∧
    responseResult (emptyAdapter (requestOf matchedResumeInput)) = none ∧
    conciergeAgentLogic emptyAdapter matchedResumeInput =
      Except.ok { text := none, interrupt := none, messages := [] } ∧
    conciergeAgentLogic emptyAdapter matchedResumeInput ≠
      Except.error ConciergeError.noOutput :=
  ⟨rfl, rfl, rfl, fun h => Except.noConfusion h⟩

/-- C5 (amended): on every run that does not take the matched-resume branch,
an adapter reply with neither text nor a capability decision fails with the
`No output from AI` error; and every run consults the adapter at exactly one
request, so no internal retry is possible (the matched-resume branch instead
returns an empty success, see the counterexample). -/
theorem c5_no_output_fatal_on_standard_path :
    (∀ (adapter : GenRequest → GenResponse) (inp : ConciergeInput),
       resumeMatch inp = none →
       (adapter (requestOf inp)).interrupts = [] →
       responseResult (adapter (requestOf inp)) = none →
       conciergeAgentLogic adapter inp = Except.error ConciergeError.noOutput) ∧
    (∀ (a1 a2 : GenRequest → GenResponse) (inp : ConciergeInput),
       a1 (requestOf inp) = a2 (requestOf inp) →
       conciergeAgentLogic a1 inp = conciergeAgentLogic a2 inp) := by
  constructor
  · intro adapter inp hm hi hres
    rw [run_factor]
    unfold runStep
    rw [hi, hm, hres]
  · intro a1 a2 inp heq
    rw [run_factor, run_factor, heq]

/-- C5 witness: a fresh turn with an all-empty adapter reply fails with the
no-output error, and changing the adapter anywhere but at the single issued
request leaves the run unchanged. -/
theorem c5_no_output_fatal_on_standard_path_witness :
    conciergeAgentLogic emptyAdapter freshInput = Except.error ConciergeError.noOutput ∧
    conciergeAgentLogic emptyAdapter freshInput =
      conciergeAgentLogic (fun _ => emptyReply) freshInput :=
  ⟨c5_no_output_fatal_on_standard_path.1 emptyAdapter freshInput rfl rfl rfl,
   c5_no_output_fatal_on_standard_path.2 emptyAdapter (fun _ => emptyReply) freshInput rfl⟩

/-- C6: whenever the adapter reply carries one or more suspensions, the run
returns exactly the FIRST suspension in adapter-returned order as the surfaced
interrupt (name, input, and metadata via `mkInterruptData`), leaving all later
suspensions of the same reply unsurfaced; the statement covers fresh and
resume turns alike, since `requestOf` ranges over both. -/
theorem c6_first_suspension_surfaced
    (adapter : GenRequest → GenResponse) (inp : ConciergeInput)
    (s : Suspension) (rest : List Suspension)
    (h : (adapter (requestOf inp)).interrupts = s :: rest) :
    conciergeAgentLogic adapter inp =
      Except.ok { text := none, interrupt := some (mkInterruptData s),
                  messages := (adapter (requestOf inp)).messages } := by
  rw [run_factor]
  unfold runStep
  rw [h]

/-- C6 witness: a doubly-suspending adapter on a fresh turn and on a resume
turn; both runs surface only the first suspension. -/
theorem c6_first_suspension_surfaced_witness :
    conciergeAgentLogic twoSuspensionsAdapter freshInput =
      Except.ok { text := none, interrupt := some (mkInterruptData susA),
                  messages := [suspendedMsg] } ∧
    conciergeAgentLogic twoSuspensionsAdapter matchedResumeInput =
      Except.ok { text := none, interrupt := some (mkInterruptData susA),
                  messages := [suspendedMsg] } :=
  ⟨c6_first_suspension_surfaced twoSuspensionsAdapter freshInput susA [susB] rfl,
   c6_first_suspension_surfaced twoSuspensionsAdapter matchedResumeInput susA [susB] rfl⟩

end Concierge

namespace InterruptChat

/-- C4: the controller holds at most one pending interrupt (the state field is
an `Option`); a response carrying a new suspension overwrites whatever was
pending with exactly the fresh interrupt, regardless of the prior state; and
the error handler always clears the pending interrupt (back to Idle), so a
stale interrupt can never capture a later, unrelated message. -/
theorem c4_single_pending_interrupt (st : ChatState) (resp : ClientResponse) (oq : String) :
    ((handleResponse st resp oq).pendingInterrupt =
      match resp.interrupt with
      | some i => some { interrupt := i, messages := resp.messages.getD [], originalQuery := oq }
      | none => st.pendingInterrupt) ∧
    (handleError st).pendingInterrupt = none := by
  refine ⟨?_, rfl⟩
  unfold handleResponse
  cases resp.interrupt with
  | some i => rfl
  | none =>
    cases resp.text with
    | none => rfl
    | some t =>
      by_cases h : (t == "") = true
      · simp [h]
      · simp only [Bool.not_eq_true] at h
        simp [h]

/-- C7: whenever an interrupt is pending and the guard admits the send, the
next utterance is routed as a resume: the request carries the stored
interrupt's capability name, the new utterance as the user response, and the
stored partial history — and the pending interrupt is cleared before sending. -/
theorem c7_pending_interrupt_routes_resume
    (st : ChatState) (raw : String) (pending : InterruptState)
    (hp : st.pendingInterrupt = some pending)
    (hl : st.isLoading = false)
    (hq : strTrim raw ≠ "") :
    (sendMessage st raw).2 =
      some { input := pending.originalQuery
             messages := pending.messages
             interruptResponse :=
               some { toolName := pending.interrupt.toolName, response := strTrim raw } } ∧
    (sendMessage st raw).1.pendingInterrupt = none := by
  unfold sendMessage
  have hg : (strTrim raw == "" || st.isLoading) = false := by
    rw [hl]
    simp [hq]
  simp [hg, hp]

/-- C7 witness: the routing theorem applied at a concrete `AwaitingResponse`
state and the utterance `"Lisbon"`. -/
theorem c7_pending_interrupt_routes_resume_witness :
    (sendMessage wChatState "Lisbon").2 =
      some { input := "Plan my weekend"
             messages := [Concierge.suspendedMsg]
             interruptResponse :=
               some { toolName := "dayTripAgentFlow", response := strTrim "Lisbon" } } ∧
    (sendMessage wChatState "Lisbon").1.pendingInterrupt = none :=
  c7_pending_interrupt_routes_resume wChatState "Lisbon" wPending rfl rfl (by decide)

end InterruptChat

namespace HistoryChat

/-- C8: whenever `sendMessage` actually sends, the history it sends is the
state as it was BEFORE the new user turn was appended, the post-call retained
history extends it with exactly that user turn, and a completed turn extends
it further with the model turn — so the history sent on a turn is always a
strict initial segment of the history after the turn and never contains the
turn's own utterance record. -/
theorem c8_history_sent_is_strictly_before_turn
    (st : HistState) (raw : String) (st2 : HistState)
    (q : String) (hist : List ConversationMessage)
    (h : sendMessage st raw = (st2, some (q, hist))) :
    hist = st.conversationHistory ∧
    st2.conversationHistory = hist ++ [{ role := HistRole.user, content := q }] ∧
    ∀ data, (handleNext st2 data).conversationHistory =
      hist ++ [{ role := HistRole.user, content := q },
               { role := HistRole.model, content := data }] := by
  unfold sendMessage at h
  by_cases hg : (strTrim raw == "" || st.isLoading) = true
  · rw [if_pos hg] at h
    exact absurd (congrArg Prod.snd h) (by simp)
  · rw [if_neg hg] at h
    rw [Prod.ext_iff] at h
    obtain ⟨h1, h2⟩ := h
    simp only [Option.some.injEq, Prod.mk.injEq] at h2
    obtain ⟨hq, hh⟩ := h2
    subst hq
    subst hh
    subst h1
    refine ⟨rfl, rfl, ?_⟩
    intro data
    unfold handleNext
    simp

/-- C8 witness: the snapshot theorem applied at a concrete two-turn state. -/
theorem c8_history_sent_is_strictly_before_turn_witness :
    (sendMessage wHistState "How far?").1.conversationHistory =
      wHistState.conversationHistory ++ [{ role := HistRole.user, content := "How far?" }] ∧
    (handleNext (sendMessage wHistState "How far?").1 "Ten miles.").conversationHistory =
      wHistState.conversationHistory ++
        [{ role := HistRole.user, content := "How far?" },
         { role := HistRole.model, content := "Ten miles." }] := by
  have h := c8_history_sent_is_strictly_before_turn wHistState "How far?"
    (sendMessage wHistState "How far?").1 "How far?" wHistState.conversationHistory (by decide)
  exact ⟨h.2.1, h.2.2 "Ten miles."⟩

/-- C9: on a failed turn the error callback appends exactly the generic
apology to the displayed message list and leaves the retained conversation
history untouched — the user turn appended before the call remains, and no
model turn is added. -/
theorem c9_error_leaves_history_untouched (st : HistState) :
    (handleError st).conversationHistory = st.conversationHistory ∧
    (handleError st).messages = st.messages ++ [{ text := histErrorText, sender := Sender.ai }] :=
  ⟨rfl, rfl⟩

end HistoryChat

namespace Concierge

/-- C10: the resume-path tool lookup tests whether a registered tool's name
ends with `resume.capabilityName` (taking the first registered tool with that
ending) rather than requiring strict equality: every hit ends with the
searched name, all four registered names end with `"Flow"` while no tool is
literally named `"Flow"`, and a resume naming `"Flow"` selects
`dayTripAgentFlow` — a tool other than the one named in the suspended
invocation record. -/
theorem c10_tool_lookup_matches_name_endings :
    (∀ name t, findMatchingTool name = some t → t ∈ toolNames ∧ strEndsWith t name = true) ∧
    toolNames.all (fun t => strEndsWith t "Flow") = true ∧
    toolNames.contains "Flow" = false ∧
    findMatchingTool "Flow" = some "dayTripAgentFlow" ∧
    resumeMatch flowResumeInput =
      some { tool := "dayTripAgentFlow", interruptPart := flowPart, response := "ans" } ∧
    "dayTripAgentFlow" ≠ "Flow" := by
  refine ⟨?_, rfl, rfl, rfl, rfl, by decide⟩
  intro name t h
  have h1 := List.mem_of_find?_eq_some h
  have h2 := List.find?_some h
  exact ⟨h1, h2⟩

/-- C10 witness: the lookup theorem applied at the concrete name `"Flow"`. -/
theorem c10_tool_lookup_matches_name_endings_witness :
    "dayTripAgentFlow" ∈ toolNames ∧ strEndsWith "dayTripAgentFlow" "Flow" = true :=
  c10_tool_lookup_matches_name_endings.1 "Flow" "dayTripAgentFlow" rfl

end Concierge
